import Mathlib

/-!
Verification development for the shared-libs repository.

The Go sources are shallowly embedded as executable Lean definitions:

* the environment is a total map from variable names to strings, where the
  empty string stands for an unset variable (os.Getenv cannot tell the two
  apart, and every read in the repository goes through GetEnv);
* the Google Cloud Secret Manager is an oracle of type
  String -> String -> Except String String (project id and secret name to
  payload or error), since its behaviour is external to the repository;
* fatal exits (log.Fatal / log.Fatalf) are the .error branch of an
  Except String result;
* the process-wide mutable state (the Config pointer and the sync.Once
  guard) is an explicit ProcState record threaded through the functions.
-/

namespace SharedLibs

/-- Environment-variable source: os.Getenv semantics, where a missing
variable reads as the empty string. -/
abbrev EnvMap := String → String

/-- Oracle for Google Cloud Secret Manager: given a project id and a secret
name it yields the payload or an error (config/secret_manager.go,
getSecretFromGoogleSecretManager; the network call itself is external). -/
abbrev SecretStore := String → String → Except String String

/-- GetEnv from config/env.go: read the variable, fall back when empty. -/
def GetEnv (env : EnvMap) (key fallback : String) : String :=
  let value := env key
  if value = "" then fallback else value

/-- ConfigVersion constant from config/env.go. -/
def ConfigVersion : String := "2.0.0"

/-- ConfigMode from config/env.go (a Go string constant; only the three
declared constants are ever produced by this repository). -/
inductive ConfigMode where
  | basic
  | secretManager
  | auto
deriving DecidableEq, Repr

/-- AppConfig struct from config/env.go.  LoadTime is the abstract clock
instant at load time. -/
structure AppConfig where
  Mode : ConfigMode
  AppEnv : String
  ProjectID : String
  MongoURI : String
  DBName : String
  JWTSecret : String
  NATSURL : String
  AllowedOrigins : String
  Port : String
  Version : String
  LoadTime : Nat
deriving DecidableEq, Repr

/-- ConfigOptions struct from config/env.go. -/
structure ConfigOptions where
  Mode : ConfigMode
  EnableSecretManager : Bool
  SecretManagerProject : String
  RequiredSecrets : List String
  OptionalSecrets : List String
  FallbackToEnv : Bool

/-- Process-wide state: the Config pointer (none until a load completed)
and the sync.Once flag guarding LoadEnvWithOptions. -/
structure ProcState where
  config : Option AppConfig
  onceDone : Bool
deriving DecidableEq, Repr

/-- detectConfigMode from config/env.go. -/
def detectConfigMode (env : EnvMap) : ConfigMode :=
  if GetEnv env "GOOGLE_CLOUD_PROJECT" "" ≠ "" then ConfigMode.secretManager
  else if GetEnv env "USE_SECRET_MANAGER" "" = "true" then ConfigMode.secretManager
  else ConfigMode.basic

/-- getDefaultAllowedOrigins from config/env.go. -/
def getDefaultAllowedOrigins (env : String) : String :=
  if env = "production" then "https://your-production-domain.com"
  else if env = "staging" then "https://staging.your-domain.com"
  else "http://localhost:5173,http://127.0.0.1:5173"

/-- The contains helper from config/env.go (linear scan over a slice). -/
def containsString (slice : List String) (item : String) : Bool :=
  match slice with
  | [] => false
  | s :: rest => if s = item then true else containsString rest item

/-- loadBasicConfig from config/env.go: populate all fields from
environment variables; always succeeds (the Go function returns nil). -/
def loadBasicConfig (env : EnvMap) (config : AppConfig) : Except String AppConfig :=
  let c :=
    { config with
        MongoURI := GetEnv env "MONGO_URI" ""
        DBName := GetEnv env "DB_NAME" "mrexperiences_service"
        JWTSecret := GetEnv env "JWT_SECRET" ""
        NATSURL := GetEnv env "NATS_URL" ""
        AllowedOrigins := getDefaultAllowedOrigins config.AppEnv }
  let envOrigins := GetEnv env "ALLOWED_ORIGINS" ""
  if envOrigins ≠ "" then .ok { c with AllowedOrigins := envOrigins }
  else .ok c

/-- getSecretOrEnv from config/env.go: try Secret Manager first, then the
environment variable when fallback is allowed; an empty environment value
is an error. -/
def getSecretOrEnv (store : SecretStore) (env : EnvMap)
    (projectID secretKey envKey fallback : String) (allowFallback : Bool) :
    Except String String :=
  match store projectID secretKey with
  | .ok value => .ok value
  | .error e =>
    if !allowFallback then .error e
    else
      let envValue := GetEnv env envKey fallback
      if envValue = "" then
        .error ("both secret " ++ secretKey ++ " and environment variable "
          ++ envKey ++ " are empty")
      else .ok envValue

/-- The secretMap literal from loadSecretsFromManager in config/env.go.
Go iterates this map in unspecified order; the loop body writes one
distinct field per key and aborts the whole load on a required failure, so
the observable outcome is order-independent and a fixed order is used. -/
def secretMap : List (String × String) :=
  [("mongo-uri", "MONGO_URI"), ("db-name", "DB_NAME"),
   ("jwt-secret", "JWT_SECRET"), ("nats-url", "NATS_URL")]

/-- The switch statement in the loop body of loadSecretsFromManager that
assigns a resolved value to the corresponding AppConfig field; db-name
falls back to the fixed default when the assigned value is empty. -/
def applySecret (config : AppConfig) (secretKey value : String) : AppConfig :=
  if secretKey = "mongo-uri" then { config with MongoURI := value }
  else if secretKey = "db-name" then
    if value = "" then { config with DBName := "mrexperiences_service" }
    else { config with DBName := value }
  else if secretKey = "jwt-secret" then { config with JWTSecret := value }
  else if secretKey = "nats-url" then { config with NATSURL := value }
  else config

/-- The for loop of loadSecretsFromManager in config/env.go: resolve each
secret, fail the whole load when a required secret is unresolved, assign
the empty string for an unresolved optional secret. -/
def loadSecretsLoop (store : SecretStore) (env : EnvMap) (projectID : String)
    (options : ConfigOptions) :
    List (String × String) → AppConfig → Except String AppConfig
  | [], config => .ok config
  | (secretKey, envKey) :: rest, config =>
    match getSecretOrEnv store env projectID secretKey envKey "" options.FallbackToEnv with
    | .ok value =>
      loadSecretsLoop store env projectID options rest (applySecret config secretKey value)
    | .error e =>
      if containsString options.RequiredSecrets secretKey then
        .error ("required secret " ++ secretKey ++ " failed to load: " ++ e)
      else
        loadSecretsLoop store env projectID options rest (applySecret config secretKey "")

/-- loadSecretsFromManager from config/env.go. -/
def loadSecretsFromManager (store : SecretStore) (env : EnvMap)
    (config : AppConfig) (options : ConfigOptions) : Except String AppConfig :=
  if config.ProjectID = "" then
    .error "Google Cloud project ID is required for Secret Manager mode"
  else
    match loadSecretsLoop store env config.ProjectID options secretMap config with
    | .error e => .error e
    | .ok c =>
      let c' := { c with AllowedOrigins := getDefaultAllowedOrigins c.AppEnv }
      let envOrigins := GetEnv env "ALLOWED_ORIGINS" ""
      if envOrigins ≠ "" then .ok { c' with AllowedOrigins := envOrigins }
      else .ok c'

/-- Model of godotenv.Load in development mode: variables that currently
read as empty are filled from the .env file when one exists; a missing
file (none) only produces a warning. -/
def dotenvApply (env : EnvMap) (file : Option EnvMap) : EnvMap :=
  match file with
  | none => env
  | some f => fun k => if env k = "" then f k else env k

/-- The external world of one load: environment, optional .env file,
Secret Manager oracle, and the clock instant. -/
structure LoadCtx where
  env : EnvMap
  dotenvFile : Option EnvMap
  store : SecretStore
  now : Nat

/-- The initial AppConfig record built at the top of the once.Do body of
LoadEnvWithOptions (config/env.go): mode from the options, APP_ENV and
PORT from the environment with their defaults, version tag and load
time. -/
def baseConfig (ctx : LoadCtx) (options : ConfigOptions) : AppConfig :=
  { Mode := options.Mode
    AppEnv := GetEnv ctx.env "APP_ENV" "development"
    ProjectID := ""
    MongoURI := ""
    DBName := ""
    JWTSecret := ""
    NATSURL := ""
    AllowedOrigins := ""
    Port := GetEnv ctx.env "PORT" "8080"
    Version := ConfigVersion
    LoadTime := ctx.now }

/-- The auto-detection step of LoadEnvWithOptions: replace mode auto by
the detected mode (detection reads the environment before the .env file
is loaded, as in the source). -/
def resolveAutoMode (ctx : LoadCtx) (config0 : AppConfig) : AppConfig :=
  if config0.Mode = ConfigMode.auto then
    { config0 with Mode := detectConfigMode ctx.env }
  else config0

/-- The environment as seen after the development-only godotenv.Load step
of LoadEnvWithOptions. -/
def effectiveEnv (ctx : LoadCtx) (config1 : AppConfig) : EnvMap :=
  if config1.AppEnv = "development" then dotenvApply ctx.env ctx.dotenvFile
  else ctx.env

/-- The mode switch of LoadEnvWithOptions: secret-manager mode resolves
the project id from the options or GOOGLE_CLOUD_PROJECT, basic mode reads
plain environment variables, anything else is an unsupported mode. -/
def loadDispatch (ctx : LoadCtx) (env' : EnvMap) (config1 : AppConfig)
    (options : ConfigOptions) : Except String AppConfig :=
  match config1.Mode with
  | ConfigMode.secretManager =>
    let pid :=
      if options.SecretManagerProject = "" then GetEnv env' "GOOGLE_CLOUD_PROJECT" ""
      else options.SecretManagerProject
    loadSecretsFromManager ctx.store env' { config1 with ProjectID := pid } options
  | ConfigMode.basic => loadBasicConfig env' config1
  | ConfigMode.auto => .error "unsupported config mode: auto"

/-- LoadEnvWithOptions from config/env.go.  The sync.Once guard makes the
body run only when onceDone is still false; a fatal configuration failure
is the .error branch (log.Fatalf terminates the process). -/
def LoadEnvWithOptions (ctx : LoadCtx) (s : ProcState) (options : ConfigOptions) :
    Except String ProcState :=
  if s.onceDone then .ok s
  else
    let config1 := resolveAutoMode ctx (baseConfig ctx options)
    match loadDispatch ctx (effectiveEnv ctx config1) config1 options with
    | .error e => .error ("Failed to load configuration: " ++ e)
    | .ok c => .ok { config := some c, onceDone := true }

/-- LoadEnv from config/env.go: default options, auto mode, fallback to
environment variables, no required secrets. -/
def LoadEnv (ctx : LoadCtx) (s : ProcState) : Except String ProcState :=
  LoadEnvWithOptions ctx s
    { Mode := ConfigMode.auto
      EnableSecretManager := false
      SecretManagerProject := ""
      RequiredSecrets := []
      OptionalSecrets := []
      FallbackToEnv := true }

/-- The fatal message shared by the pre-load accessor guards. -/
def notLoadedMsg : String := "Configuration not loaded. Call LoadEnv() first"

/-- GetMongoURI accessor from config/env.go (fatal when Config is nil). -/
def GetMongoURI (s : ProcState) : Except String String :=
  match s.config with
  | none => .error notLoadedMsg
  | some c => .ok c.MongoURI

/-- GetDBName accessor from config/env.go. -/
def GetDBName (s : ProcState) : Except String String :=
  match s.config with
  | none => .error notLoadedMsg
  | some c => .ok c.DBName

/-- GetJWTSecret accessor from config/env.go. -/
def GetJWTSecret (s : ProcState) : Except String String :=
  match s.config with
  | none => .error notLoadedMsg
  | some c => .ok c.JWTSecret

/-- GetNATSURL accessor from config/env.go. -/
def GetNATSURL (s : ProcState) : Except String String :=
  match s.config with
  | none => .error notLoadedMsg
  | some c => .ok c.NATSURL

/-- GetAllowedOrigins accessor from config/env.go. -/
def GetAllowedOrigins (s : ProcState) : Except String String :=
  match s.config with
  | none => .error notLoadedMsg
  | some c => .ok c.AllowedOrigins

/-- GetPort accessor from config/env.go. -/
def GetPort (s : ProcState) : Except String String :=
  match s.config with
  | none => .error notLoadedMsg
  | some c => .ok c.Port

/-- GetAppEnv accessor from config/env.go. -/
def GetAppEnv (s : ProcState) : Except String String :=
  match s.config with
  | none => .error notLoadedMsg
  | some c => .ok c.AppEnv

/-- GetConfig accessor from config/env.go (returns a copy). -/
def GetConfig (s : ProcState) : Except String AppConfig :=
  match s.config with
  | none => .error notLoadedMsg
  | some c => .ok c

/-- GetConfigMode from config/env.go: unlike the other accessors it does
NOT call log.Fatal on a nil Config; it returns ModeBasic. -/
def GetConfigMode (s : ProcState) : Except String ConfigMode :=
  match s.config with
  | none => .ok ConfigMode.basic
  | some c => .ok c.Mode

/-- IsSecretManagerEnabled from config/env.go. -/
def IsSecretManagerEnabled (s : ProcState) : Except String Bool :=
  match GetConfigMode s with
  | .error e => .error e
  | .ok m => .ok (m == ConfigMode.secretManager)

/-! Helper lemmas about the configuration loader. -/

theorem getEnv_noFallback (env : EnvMap) (k : String) : GetEnv env k "" = env k := by
  unfold GetEnv
  by_cases h : env k = "" <;> simp [h]

theorem applySecret_Mode (cfg : AppConfig) (k v : String) :
    (applySecret cfg k v).Mode = cfg.Mode := by
  unfold applySecret
  repeat' split
  all_goals rfl

theorem loadSecretsLoop_Mode (store : SecretStore) (env : EnvMap) (pid : String)
    (opts : ConfigOptions) :
    ∀ (l : List (String × String)) (cfg c : AppConfig),
      loadSecretsLoop store env pid opts l cfg = .ok c → c.Mode = cfg.Mode := by
  intro l
  induction l with
  | nil =>
    intro cfg c h
    simp only [loadSecretsLoop] at h
    cases h
    rfl
  | cons p rest ih =>
    intro cfg c h
    obtain ⟨sk, ek⟩ := p
    simp only [loadSecretsLoop] at h
    split at h
    · have := ih _ _ h
      rw [this, applySecret_Mode]
    · split at h
      · exact absurd h (by simp)
      · have := ih _ _ h
        rw [this, applySecret_Mode]

theorem loadSecretsFromManager_Mode (store : SecretStore) (env : EnvMap)
    (cfg : AppConfig) (opts : ConfigOptions) (c : AppConfig)
    (h : loadSecretsFromManager store env cfg opts = .ok c) : c.Mode = cfg.Mode := by
  unfold loadSecretsFromManager at h
  split at h
  · exact absurd h (by simp)
  · split at h
    · exact absurd h (by simp)
    · rename_i c0 hl
      have hm := loadSecretsLoop_Mode store env cfg.ProjectID opts secretMap cfg c0 hl
      dsimp only at h
      split at h
      · cases h
        exact hm
      · cases h
        exact hm

theorem loadBasicConfig_Mode (env : EnvMap) (cfg c : AppConfig)
    (h : loadBasicConfig env cfg = .ok c) : c.Mode = cfg.Mode := by
  unfold loadBasicConfig at h
  dsimp only at h
  split at h
  · cases h
    rfl
  · cases h
    rfl

theorem loadDispatch_Mode (ctx : LoadCtx) (env' : EnvMap) (config1 : AppConfig)
    (opts : ConfigOptions) (c : AppConfig)
    (h : loadDispatch ctx env' config1 opts = .ok c) : c.Mode = config1.Mode := by
  unfold loadDispatch at h
  split at h
  · dsimp only at h
    have h2 := loadSecretsFromManager_Mode _ _ _ _ _ h
    exact h2
  · exact loadBasicConfig_Mode _ _ _ h
  · exact absurd h (by simp)

/-! C2: configuration loading is a one-shot operation. -/

/-- C2: after a first call to LoadEnvWithOptions has completed, every
subsequent call with any context and options is a no-op returning the same
process state, so at most one effective load occurs per process. -/
theorem c2_load_is_one_shot (ctx : LoadCtx) (s : ProcState) (opts : ConfigOptions)
    (s' : ProcState) (ctx' : LoadCtx) (opts' : ConfigOptions)
    (hfirst : LoadEnvWithOptions ctx s opts = .ok s') :
    LoadEnvWithOptions ctx' s' opts' = .ok s' := by
  have hdone : s'.onceDone = true := by
    unfold LoadEnvWithOptions at hfirst
    by_cases h : s.onceDone
    · rw [if_pos h] at hfirst
      cases hfirst
      exact h
    · rw [if_neg h] at hfirst
      dsimp only at hfirst
      split at hfirst
      · exact absurd hfirst (by simp)
      · cases hfirst
        rfl
  unfold LoadEnvWithOptions
  rw [if_pos hdone]

/-- Witness context: empty environment, no .env file, unreachable secret
store. -/
def ctxW : LoadCtx :=
  { env := fun _ => ""
    dotenvFile := none
    store := fun _ _ => .error "secret manager unavailable"
    now := 0 }

/-- Witness options: explicit basic mode. -/
def optsBasicW : ConfigOptions :=
  { Mode := ConfigMode.basic
    EnableSecretManager := false
    SecretManagerProject := ""
    RequiredSecrets := []
    OptionalSecrets := []
    FallbackToEnv := true }

/-- The process state produced by a first basic-mode load under ctxW. -/
def stateW : ProcState :=
  { config := some
      { Mode := ConfigMode.basic
        AppEnv := "development"
        ProjectID := ""
        MongoURI := ""
        DBName := "mrexperiences_service"
        JWTSecret := ""
        NATSURL := ""
        AllowedOrigins := "http://localhost:5173,http://127.0.0.1:5173"
        Port := "8080"
        Version := "2.0.0"
        LoadTime := 0 }
    onceDone := true }

/-- Witness for C2 at a concrete first load. -/
theorem c2_witness : LoadEnvWithOptions ctxW stateW optsBasicW = .ok stateW :=
  c2_load_is_one_shot ctxW ⟨none, false⟩ optsBasicW stateW ctxW optsBasicW (by rfl)

/-! C3: auto mode detection. -/

/-- C3: with mode auto, the effective mode of a completed load is
secret-manager exactly when GOOGLE_CLOUD_PROJECT is non-empty or
USE_SECRET_MANAGER equals "true", and basic otherwise. -/
theorem c3_auto_mode_detection (ctx : LoadCtx) (s : ProcState) (opts : ConfigOptions)
    (s' : ProcState) (hOnce : s.onceDone = false) (hMode : opts.Mode = ConfigMode.auto)
    (hLoad : LoadEnvWithOptions ctx s opts = .ok s') :
    ∃ c, s'.config = some c ∧
      c.Mode = (if ctx.env "GOOGLE_CLOUD_PROJECT" ≠ "" ∨ ctx.env "USE_SECRET_MANAGER" = "true"
                then ConfigMode.secretManager else ConfigMode.basic) := by
  have hdet : detectConfigMode ctx.env =
      (if ctx.env "GOOGLE_CLOUD_PROJECT" ≠ "" ∨ ctx.env "USE_SECRET_MANAGER" = "true"
       then ConfigMode.secretManager else ConfigMode.basic) := by
    unfold detectConfigMode
    rw [getEnv_noFallback, getEnv_noFallback]
    by_cases h1 : ctx.env "GOOGLE_CLOUD_PROJECT" = ""
    · by_cases h2 : ctx.env "USE_SECRET_MANAGER" = "true" <;> simp [h1, h2]
    · simp [h1]
  unfold LoadEnvWithOptions at hLoad
  rw [hOnce] at hLoad
  simp only [Bool.false_eq_true, if_false] at hLoad
  split at hLoad
  · exact absurd hLoad (by simp)
  · rename_i c hok
    cases hLoad
    refine ⟨c, rfl, ?_⟩
    have h1 := loadDispatch_Mode _ _ _ _ _ hok
    have h2 : (resolveAutoMode ctx (baseConfig ctx opts)).Mode = detectConfigMode ctx.env := by
      unfold resolveAutoMode baseConfig
      simp [hMode]
    rw [h1, h2, hdet]

/-- Witness for C3: empty environment resolves auto to basic mode. -/
theorem c3_witness :
    ∃ c, stateW.config = some c ∧
      c.Mode = (if ctxW.env "GOOGLE_CLOUD_PROJECT" ≠ "" ∨ ctxW.env "USE_SECRET_MANAGER" = "true"
                then ConfigMode.secretManager else ConfigMode.basic) :=
  c3_auto_mode_detection ctxW ⟨none, false⟩
    { Mode := ConfigMode.auto
      EnableSecretManager := false
      SecretManagerProject := ""
      RequiredSecrets := []
      OptionalSecrets := []
      FallbackToEnv := true }
    stateW rfl rfl (by rfl)

/-! C4: default allowed origins in basic mode. -/

/-- C4: in basic mode, with ALLOWED_ORIGINS unset or empty the loaded
AllowedOrigins field is the fixed production domain for AppEnv
"production", the fixed staging domain for "staging", and the localhost
pair otherwise; a non-empty ALLOWED_ORIGINS overrides the default. -/
theorem c4_allowed_origins_defaults (env : EnvMap) (cfg : AppConfig) :
    ∃ c, loadBasicConfig env cfg = .ok c ∧
      c.AllowedOrigins =
        (if env "ALLOWED_ORIGINS" ≠ "" then env "ALLOWED_ORIGINS"
         else if cfg.AppEnv = "production" then "https://your-production-domain.com"
         else if cfg.AppEnv = "staging" then "https://staging.your-domain.com"
         else "http://localhost:5173,http://127.0.0.1:5173") := by
  unfold loadBasicConfig getDefaultAllowedOrigins
  dsimp only
  rw [getEnv_noFallback]
  by_cases ho : env "ALLOWED_ORIGINS" = ""
  · simp [ho]
  · simp [ho]

/-! C5: accessor behaviour before a load has completed.

The claim states that every exposed accessor aborts fatally on a nil
Config.  GetConfigMode and IsSecretManagerEnabled do not: GetConfigMode
returns ModeBasic and IsSecretManagerEnabled returns false. -/

/-- Refutation of C5 as stated: on the fresh process state (Config nil)
GetConfigMode returns the basic mode and IsSecretManagerEnabled returns
false instead of aborting fatally. -/
theorem c5_counterexample :
    GetConfigMode ⟨none, false⟩ = .ok ConfigMode.basic ∧
    IsSecretManagerEnabled ⟨none, false⟩ = .ok false := by
  constructor <;> rfl

/-- C5 amended: with Config still nil, the eight accessors GetMongoURI,
GetDBName, GetJWTSecret, GetNATSURL, GetAllowedOrigins, GetPort,
GetAppEnv and GetConfig abort fatally, while GetConfigMode returns the
basic mode and IsSecretManagerEnabled returns false. -/
theorem c5_accessors_before_load (s : ProcState) (h : s.config = none) :
    GetMongoURI s = .error notLoadedMsg ∧
    GetDBName s = .error notLoadedMsg ∧
    GetJWTSecret s = .error notLoadedMsg ∧
    GetNATSURL s = .error notLoadedMsg ∧
    GetAllowedOrigins s = .error notLoadedMsg ∧
    GetPort s = .error notLoadedMsg ∧
    GetAppEnv s = .error notLoadedMsg ∧
    GetConfig s = .error notLoadedMsg ∧
    GetConfigMode s = .ok ConfigMode.basic ∧
    IsSecretManagerEnabled s = .ok false := by
  obtain ⟨cfg, once⟩ := s
  cases h
  simp [GetMongoURI, GetDBName, GetJWTSecret, GetNATSURL, GetAllowedOrigins,
    GetPort, GetAppEnv, GetConfig, GetConfigMode, IsSecretManagerEnabled]

/-- Witness for the amended C5 at the fresh process state. -/
theorem c5_witness :
    GetMongoURI ⟨none, false⟩ = .error notLoadedMsg ∧
    GetDBName ⟨none, false⟩ = .error notLoadedMsg ∧
    GetJWTSecret ⟨none, false⟩ = .error notLoadedMsg ∧
    GetNATSURL ⟨none, false⟩ = .error notLoadedMsg ∧
    GetAllowedOrigins ⟨none, false⟩ = .error notLoadedMsg ∧
    GetPort ⟨none, false⟩ = .error notLoadedMsg ∧
    GetAppEnv ⟨none, false⟩ = .error notLoadedMsg ∧
    GetConfig ⟨none, false⟩ = .error notLoadedMsg ∧
    GetConfigMode ⟨none, false⟩ = .ok ConfigMode.basic ∧
    IsSecretManagerEnabled ⟨none, false⟩ = .ok false :=
  c5_accessors_before_load ⟨none, false⟩ rfl

/-! C1: required versus optional secrets in secret-manager mode. -/

/-- Whether an Except result is a success (a nil error in Go). -/
def isOkB {A : Type} : Except String A → Bool
  | .ok _ => true
  | .error _ => false

@[simp] theorem isOkB_ok {A : Type} (a : A) : isOkB (Except.ok a) = true := rfl

@[simp] theorem isOkB_error {A : Type} (e : String) :
    isOkB (Except.error e : Except String A) = false := rfl

/-- The AppConfig field that the loadSecretsFromManager switch assigns for
a given logical secret key. -/
def fieldOf (c : AppConfig) (secretKey : String) : String :=
  if secretKey = "mongo-uri" then c.MongoURI
  else if secretKey = "db-name" then c.DBName
  else if secretKey = "jwt-secret" then c.JWTSecret
  else if secretKey = "nats-url" then c.NATSURL
  else ""

/-- The value the loop assigns for a secret key: the resolved value, or
the empty string when resolution failed (and the secret was optional). -/
def resolveValue (store : SecretStore) (env : EnvMap) (pid : String)
    (opts : ConfigOptions) (sk ek : String) : String :=
  match getSecretOrEnv store env pid sk ek "" opts.FallbackToEnv with
  | .ok v => v
  | .error _ => ""

theorem applySecret_MongoURI (cfg : AppConfig) (k v : String) :
    (applySecret cfg k v).MongoURI = if k = "mongo-uri" then v else cfg.MongoURI := by
  unfold applySecret
  repeat' split
  all_goals simp_all

theorem applySecret_DBName (cfg : AppConfig) (k v : String) :
    (applySecret cfg k v).DBName =
      if k = "db-name" then (if v = "" then "mrexperiences_service" else v)
      else cfg.DBName := by
  unfold applySecret
  repeat' split
  all_goals simp_all

theorem applySecret_JWTSecret (cfg : AppConfig) (k v : String) :
    (applySecret cfg k v).JWTSecret = if k = "jwt-secret" then v else cfg.JWTSecret := by
  unfold applySecret
  repeat' split
  all_goals simp_all

theorem applySecret_NATSURL (cfg : AppConfig) (k v : String) :
    (applySecret cfg k v).NATSURL = if k = "nats-url" then v else cfg.NATSURL := by
  unfold applySecret
  repeat' split
  all_goals simp_all

theorem resolveValue_of_fail (store : SecretStore) (env : EnvMap) (pid : String)
    (opts : ConfigOptions) (sk ek : String)
    (h : isOkB (getSecretOrEnv store env pid sk ek "" opts.FallbackToEnv) = false) :
    resolveValue store env pid opts sk ek = "" := by
  unfold resolveValue
  cases hr : getSecretOrEnv store env pid sk ek "" opts.FallbackToEnv with
  | ok v =>
    rw [hr] at h
    simp at h
  | error e => rfl

theorem loop_cons_step (store : SecretStore) (env : EnvMap) (pid : String)
    (opts : ConfigOptions) (sk ek : String) (rest : List (String × String))
    (cfg : AppConfig)
    (hno : containsString opts.RequiredSecrets sk = true →
      isOkB (getSecretOrEnv store env pid sk ek "" opts.FallbackToEnv) = true) :
    loadSecretsLoop store env pid opts ((sk, ek) :: rest) cfg =
      loadSecretsLoop store env pid opts rest
        (applySecret cfg sk (resolveValue store env pid opts sk ek)) := by
  simp only [loadSecretsLoop]
  cases hr : getSecretOrEnv store env pid sk ek "" opts.FallbackToEnv with
  | ok v => simp [resolveValue, hr]
  | error e =>
    have hb : containsString opts.RequiredSecrets sk = false := by
      cases hcb : containsString opts.RequiredSecrets sk
      · rfl
      · have h2 := hno hcb
        rw [hr] at h2
        simp at h2
    simp [resolveValue, hr, hb]

theorem loop_ok_iff (store : SecretStore) (env : EnvMap) (pid : String)
    (opts : ConfigOptions) :
    ∀ (l : List (String × String)) (cfg : AppConfig),
      (isOkB (loadSecretsLoop store env pid opts l cfg) = true) ↔
        ∀ p ∈ l, containsString opts.RequiredSecrets p.1 = true →
          isOkB (getSecretOrEnv store env pid p.1 p.2 "" opts.FallbackToEnv) = true := by
  intro l
  induction l with
  | nil =>
    intro cfg
    simp [loadSecretsLoop]
  | cons p rest ih =>
    intro cfg
    obtain ⟨sk, ek⟩ := p
    simp only [loadSecretsLoop]
    cases hr : getSecretOrEnv store env pid sk ek "" opts.FallbackToEnv with
    | ok v =>
      dsimp only
      rw [ih]
      simp only [List.mem_cons]
      constructor
      · rintro h q (rfl | hq)
        · intro _
          rw [hr]
          rfl
        · exact h q hq
      · intro h q hq
        exact h q (Or.inr hq)
    | error e =>
      dsimp only
      by_cases hb : containsString opts.RequiredSecrets sk = true
      · rw [if_pos hb]
        constructor
        · intro h
          simp at h
        · intro h
          have h2 := h (sk, ek) (List.mem_cons_self _ _) hb
          rw [hr] at h2
          simp at h2
      · rw [if_neg hb]
        rw [ih]
        simp only [List.mem_cons]
        constructor
        · rintro h q (rfl | hq)
          · intro hq1
            exact absurd hq1 hb
          · exact h q hq
        · intro h q hq
          exact h q (Or.inr hq)

theorem lsm_isOk_eq_loop (store : SecretStore) (env : EnvMap) (cfg : AppConfig)
    (opts : ConfigOptions) (hpid : cfg.ProjectID ≠ "") :
    isOkB (loadSecretsFromManager store env cfg opts) =
      isOkB (loadSecretsLoop store env cfg.ProjectID opts secretMap cfg) := by
  unfold loadSecretsFromManager
  rw [if_neg hpid]
  cases hl : loadSecretsLoop store env cfg.ProjectID opts secretMap cfg with
  | error e => rfl
  | ok c0 =>
    dsimp only
    split <;> rfl

theorem lsm_ok_fields (store : SecretStore) (env : EnvMap) (cfg : AppConfig)
    (opts : ConfigOptions) (c : AppConfig) (hpid : cfg.ProjectID ≠ "")
    (h : loadSecretsFromManager store env cfg opts = .ok c) :
    ∃ c0, loadSecretsLoop store env cfg.ProjectID opts secretMap cfg = .ok c0 ∧
      c.MongoURI = c0.MongoURI ∧ c.DBName = c0.DBName ∧
      c.JWTSecret = c0.JWTSecret ∧ c.NATSURL = c0.NATSURL := by
  unfold loadSecretsFromManager at h
  rw [if_neg hpid] at h
  cases hl : loadSecretsLoop store env cfg.ProjectID opts secretMap cfg with
  | error e =>
    rw [hl] at h
    exact absurd h (by simp)
  | ok c0 =>
    rw [hl] at h
    dsimp only at h
    refine ⟨c0, rfl, ?_⟩
    split at h <;> (cases h; exact ⟨rfl, rfl, rfl, rfl⟩)

theorem loop_secretMap_result (store : SecretStore) (env : EnvMap) (pid : String)
    (opts : ConfigOptions) (cfg : AppConfig)
    (h : ∀ p ∈ secretMap, containsString opts.RequiredSecrets p.1 = true →
      isOkB (getSecretOrEnv store env pid p.1 p.2 "" opts.FallbackToEnv) = true) :
    loadSecretsLoop store env pid opts secretMap cfg =
      .ok (applySecret
            (applySecret
              (applySecret
                (applySecret cfg "mongo-uri" (resolveValue store env pid opts "mongo-uri" "MONGO_URI"))
                "db-name" (resolveValue store env pid opts "db-name" "DB_NAME"))
              "jwt-secret" (resolveValue store env pid opts "jwt-secret" "JWT_SECRET"))
            "nats-url" (resolveValue store env pid opts "nats-url" "NATS_URL")) := by
  have h1 := h ("mongo-uri", "MONGO_URI") (by simp [secretMap])
  have h2 := h ("db-name", "DB_NAME") (by simp [secretMap])
  have h3 := h ("jwt-secret", "JWT_SECRET") (by simp [secretMap])
  have h4 := h ("nats-url", "NATS_URL") (by simp [secretMap])
  show loadSecretsLoop store env pid opts
    [("mongo-uri", "MONGO_URI"), ("db-name", "DB_NAME"),
     ("jwt-secret", "JWT_SECRET"), ("nats-url", "NATS_URL")] cfg = _
  rw [loop_cons_step store env pid opts _ _ _ _ h1,
      loop_cons_step store env pid opts _ _ _ _ h2,
      loop_cons_step store env pid opts _ _ _ _ h3,
      loop_cons_step store env pid opts _ _ _ _ h4]
  rfl

/-- Refutation of C1 as stated: with an unreachable secret store, an empty
environment and no required secrets, the load succeeds but the DBName
field is not left empty; it is set to the fixed default database name. -/
theorem c1_counterexample :
    ∃ c, loadSecretsFromManager (fun _ _ => .error "secret manager unavailable")
          (fun _ => "")
          { Mode := ConfigMode.secretManager, AppEnv := "development",
            ProjectID := "test-project", MongoURI := "", DBName := "",
            JWTSecret := "", NATSURL := "", AllowedOrigins := "", Port := "8080",
            Version := "2.0.0", LoadTime := 0 }
          { Mode := ConfigMode.secretManager, EnableSecretManager := true,
            SecretManagerProject := "test-project", RequiredSecrets := [],
            OptionalSecrets := [], FallbackToEnv := true } = .ok c ∧
      c.DBName = "mrexperiences_service" ∧ c.DBName ≠ "" := by
  refine ⟨{ Mode := ConfigMode.secretManager, AppEnv := "development",
            ProjectID := "test-project", MongoURI := "",
            DBName := "mrexperiences_service", JWTSecret := "", NATSURL := "",
            AllowedOrigins := "http://localhost:5173,http://127.0.0.1:5173",
            Port := "8080", Version := "2.0.0", LoadTime := 0 }, ?_, rfl, ?_⟩
  · rfl
  · decide

/-- C1 amended: in secret-manager mode (with a project id), loading
succeeds exactly when every required secret among the four resolves; for
an unresolved secret, required means the whole load fails, optional means
the corresponding field is assigned the empty string, except db-name whose
field falls back to the fixed default "mrexperiences_service". -/
theorem c1_required_fatal_optional_empty (store : SecretStore) (env : EnvMap)
    (cfg : AppConfig) (opts : ConfigOptions) (hpid : cfg.ProjectID ≠ "") :
    ((isOkB (loadSecretsFromManager store env cfg opts) = true) ↔
      (∀ p ∈ secretMap, containsString opts.RequiredSecrets p.1 = true →
        isOkB (getSecretOrEnv store env cfg.ProjectID p.1 p.2 "" opts.FallbackToEnv) = true))
    ∧ (∀ p ∈ secretMap,
        isOkB (getSecretOrEnv store env cfg.ProjectID p.1 p.2 "" opts.FallbackToEnv) = false →
        ∀ c, loadSecretsFromManager store env cfg opts = .ok c →
          fieldOf c p.1 = (if p.1 = "db-name" then "mrexperiences_service" else "")) := by
  constructor
  · rw [lsm_isOk_eq_loop store env cfg opts hpid]
    exact loop_ok_iff store env cfg.ProjectID opts secretMap cfg
  · intro p hp hfail c hok
    obtain ⟨c0, hl, hf1, hf2, hf3, hf4⟩ := lsm_ok_fields store env cfg opts c hpid hok
    have hreq : ∀ q ∈ secretMap, containsString opts.RequiredSecrets q.1 = true →
        isOkB (getSecretOrEnv store env cfg.ProjectID q.1 q.2 "" opts.FallbackToEnv) = true := by
      rw [← loop_ok_iff store env cfg.ProjectID opts secretMap cfg]
      rw [hl]
      rfl
    rw [loop_secretMap_result store env cfg.ProjectID opts cfg hreq] at hl
    have hc0 : c0 = applySecret
        (applySecret
          (applySecret
            (applySecret cfg "mongo-uri" (resolveValue store env cfg.ProjectID opts "mongo-uri" "MONGO_URI"))
            "db-name" (resolveValue store env cfg.ProjectID opts "db-name" "DB_NAME"))
          "jwt-secret" (resolveValue store env cfg.ProjectID opts "jwt-secret" "JWT_SECRET"))
        "nats-url" (resolveValue store env cfg.ProjectID opts "nats-url" "NATS_URL") := by
      cases hl
      rfl
    simp only [secretMap, List.mem_cons, List.not_mem_nil, or_false] at hp
    rcases hp with rfl | rfl | rfl | rfl
    · dsimp only at hfail
      have hv := resolveValue_of_fail store env cfg.ProjectID opts "mongo-uri" "MONGO_URI" hfail
      rw [hc0, hv] at hf1
      show c.MongoURI = ""
      rw [hf1]
      simp [applySecret_MongoURI, applySecret_DBName, applySecret_JWTSecret, applySecret_NATSURL]
    · dsimp only at hfail
      have hv := resolveValue_of_fail store env cfg.ProjectID opts "db-name" "DB_NAME" hfail
      rw [hc0, hv] at hf2
      show c.DBName = "mrexperiences_service"
      rw [hf2]
      simp [applySecret_MongoURI, applySecret_DBName, applySecret_JWTSecret, applySecret_NATSURL]
    · dsimp only at hfail
      have hv := resolveValue_of_fail store env cfg.ProjectID opts "jwt-secret" "JWT_SECRET" hfail
      rw [hc0, hv] at hf3
      show c.JWTSecret = ""
      rw [hf3]
      simp [applySecret_MongoURI, applySecret_DBName, applySecret_JWTSecret, applySecret_NATSURL]
    · dsimp only at hfail
      have hv := resolveValue_of_fail store env cfg.ProjectID opts "nats-url" "NATS_URL" hfail
      rw [hc0, hv] at hf4
      show c.NATSURL = ""
      rw [hf4]
      simp [applySecret_MongoURI, applySecret_DBName, applySecret_JWTSecret, applySecret_NATSURL]

/-- Witness for the amended C1: with an unreachable store, an empty
environment and no required secrets, the secret-manager load succeeds. -/
theorem c1_witness :
    isOkB (loadSecretsFromManager (fun _ _ => .error "boom") (fun _ => "")
      { Mode := ConfigMode.secretManager, AppEnv := "development",
        ProjectID := "p", MongoURI := "x", DBName := "", JWTSecret := "",
        NATSURL := "", AllowedOrigins := "", Port := "8080",
        Version := "2.0.0", LoadTime := 0 }
      { Mode := ConfigMode.secretManager, EnableSecretManager := true,
        SecretManagerProject := "p", RequiredSecrets := [],
        OptionalSecrets := [], FallbackToEnv := true }) = true := by
  have h := c1_required_fatal_optional_empty (fun _ _ => .error "boom") (fun _ => "")
    { Mode := ConfigMode.secretManager, AppEnv := "development",
      ProjectID := "p", MongoURI := "x", DBName := "", JWTSecret := "",
      NATSURL := "", AllowedOrigins := "", Port := "8080",
      Version := "2.0.0", LoadTime := 0 }
    { Mode := ConfigMode.secretManager, EnableSecretManager := true,
      SecretManagerProject := "p", RequiredSecrets := [],
      OptionalSecrets := [], FallbackToEnv := true }
    (by decide)
  exact h.1.mpr (by
    intro p hp hq
    exact absurd hq (by simp [containsString]))

/-! Audit trail (utils/logging.go and the AuditLog model).

LogAudit builds a models.AuditLog record with a fresh
primitive.NewObjectID(), the given admin id, action and target id, and
time.Now(), then inserts it through the MongoDB driver.  The embedding
models the driver's ObjectID generator as a per-process counter oracle
(the real generator is timestamp + random + monotonic counter; within a
process every call returns a value distinct from all earlier ones, which
is the only property used), the clock as an abstract instant, and the
BSON marshalling of a time.Time value, which serialises the instant as a
UTC datetime regardless of the wall-clock zone attached to it. -/

/-- Wall-clock zone attached to a Go time.Time value. -/
inductive Zone where
  | localZone
  | utc
deriving DecidableEq, Repr

/-- A Go time.Time: an instant (milliseconds since epoch) plus the zone it
is expressed in; the zone does not affect the instant. -/
structure GoTime where
  instant : Nat
  zone : Zone
deriving DecidableEq, Repr

/-- models.AuditLog from the models package (unnamed source part): id,
admin id, action, target id, timestamp. -/
structure AuditLog where
  ID : Nat
  AdminID : String
  Action : String
  TargetID : String
  Timestamp : GoTime
deriving DecidableEq, Repr

/-- BSON marshalling of a time.Time: the driver stores a UTC datetime
holding the same instant. -/
def bsonMarshalTime (t : GoTime) : GoTime :=
  { instant := t.instant, zone := Zone.utc }

/-- BSON marshalling of an AuditLog document before insertion. -/
def bsonMarshalAuditLog (e : AuditLog) : AuditLog :=
  { e with Timestamp := bsonMarshalTime e.Timestamp }

/-- The world LogAudit runs in: the ObjectID generator counter (every id
ever generated so far is below nextOid), the clock, the audit collection
contents, the console log, and the outcome the store will give the
InsertOne call. -/
structure AuditWorld where
  nextOid : Nat
  now : Nat
  collection : List AuditLog
  console : List String
  insertFails : Bool
deriving DecidableEq, Repr

/-- LogAudit from utils/logging.go: build the entry with a fresh id and
time.Now(), insert it (the driver marshals it to BSON); on failure print
the error and return normally.  The Except result channel is how a Go
error or panic would propagate to the caller; LogAudit never uses it. -/
def LogAudit (w : AuditWorld) (adminID action targetID : String) :
    Except String AuditWorld :=
  let entry : AuditLog :=
    { ID := w.nextOid
      AdminID := adminID
      Action := action
      TargetID := targetID
      Timestamp := { instant := w.now, zone := Zone.localZone } }
  if w.insertFails then
    .ok { w with
            nextOid := w.nextOid + 1
            console := w.console ++ ["Failed to log audit: insert error"] }
  else
    .ok { w with
            nextOid := w.nextOid + 1
            collection := w.collection ++ [bsonMarshalAuditLog entry] }

/-! C6: the recorded entry. -/

/-- C6: a successful insertion appends exactly one document whose id is
the freshly generated one (distinct from every previously generated id,
which under the counter oracle are the naturals below nextOid), whose
actor id, action and target id are the arguments unchanged, and whose
timestamp is the write-time instant expressed in UTC (the BSON layer
serialises the time.Now() value as a UTC datetime). -/
theorem c6_record_fields (w : AuditWorld) (adminID action targetID : String)
    (w' : AuditWorld) (hok : LogAudit w adminID action targetID = .ok w')
    (hins : w.insertFails = false) :
    w'.collection = w.collection ++
      [{ ID := w.nextOid
         AdminID := adminID
         Action := action
         TargetID := targetID
         Timestamp := { instant := w.now, zone := Zone.utc } }] ∧
    w'.nextOid = w.nextOid + 1 ∧
    (w.nextOid ∉ List.range w.nextOid) := by
  unfold LogAudit at hok
  rw [hins] at hok
  simp only [Bool.false_eq_true, if_false] at hok
  cases hok
  refine ⟨rfl, rfl, ?_⟩
  simp

/-- Concrete audit world for the C6 witness. -/
def auditW : AuditWorld :=
  { nextOid := 7, now := 1700000000, collection := [], console := [],
    insertFails := false }

/-- The audit world after the C6 witness call. -/
def auditW' : AuditWorld :=
  { nextOid := 8, now := 1700000000,
    collection := [{ ID := 7, AdminID := "admin1", Action := "delete_user",
                     TargetID := "user42",
                     Timestamp := { instant := 1700000000, zone := Zone.utc } }],
    console := [], insertFails := false }

/-- Witness for C6 at a concrete world. -/
theorem c6_witness :
    auditW'.collection = auditW.collection ++
      [{ ID := auditW.nextOid, AdminID := "admin1", Action := "delete_user",
         TargetID := "user42",
         Timestamp := { instant := auditW.now, zone := Zone.utc } }] ∧
    auditW'.nextOid = auditW.nextOid + 1 ∧
    (auditW.nextOid ∉ List.range auditW.nextOid) :=
  c6_record_fields auditW "admin1" "delete_user" "user42" auditW' (by rfl) rfl

/-! C7: insertion failure is swallowed. -/

/-- C7: LogAudit always returns normally (never propagates an error to
the caller); when the insertion fails, the collection is unchanged and
the failure is written to the console log. -/
theorem c7_failure_swallowed (w : AuditWorld) (adminID action targetID : String) :
    isOkB (LogAudit w adminID action targetID) = true ∧
    (w.insertFails = true →
      LogAudit w adminID action targetID =
        .ok { w with
                nextOid := w.nextOid + 1
                console := w.console ++ ["Failed to log audit: insert error"] }) := by
  unfold LogAudit
  constructor
  · cases hf : w.insertFails <;> simp [hf]
  · intro hf
    rw [hf]
    rfl

/-- Concrete audit world whose insertion fails, for the C7 witness. -/
def auditWFail : AuditWorld :=
  { nextOid := 0, now := 5, collection := [], console := [], insertFails := true }

/-- Witness for C7 at a concrete world whose insertion fails. -/
theorem c7_witness :
    isOkB (LogAudit auditWFail "a" "act" "t") = true ∧
    LogAudit auditWFail "a" "act" "t" =
      .ok { auditWFail with
              nextOid := auditWFail.nextOid + 1
              console := auditWFail.console ++ ["Failed to log audit: insert error"] } :=
  ⟨(c7_failure_swallowed auditWFail "a" "act" "t").1,
   (c7_failure_swallowed auditWFail "a" "act" "t").2 rfl⟩

/-! JWT utilities (utils/jwt.go) and auth middleware (middleware package).

A JWT is modelled as its claim set plus an HMAC tag over the claims; the
HMAC itself is an external primitive, kept abstract as a function from
secret and claims to a tag.  Verification recomputes the tag and compares,
exactly as signature verification behaves for an HMAC-signed JWS; claim
validation mirrors jwt/v4 MapClaims.Valid (exp, iat, nbf checked only
when present). -/

/-- A JSON claim value as used by this repository: a string or a number
(Unix seconds are numbers). -/
inductive ClaimVal where
  | str (s : String)
  | num (n : Int)
deriving DecidableEq, Repr

/-- jwt.MapClaims: a map from claim names to values (keys unique). -/
abbrev MapClaims := List (String × ClaimVal)

/-- Map lookup on a claim set. -/
def claimLookup (m : MapClaims) (k : String) : Option ClaimVal :=
  (m.find? (fun p => p.1 == k)).map Prod.snd

/-- Abstract HMAC-SHA256: secret and message to tag. -/
abbrev MacFun := String → MapClaims → Nat

/-- A signed token: payload claims plus signature tag. -/
structure JwtToken where
  claims : MapClaims
  sig : Nat
deriving DecidableEq, Repr

/-- SignedString on a claims object: attach the tag over the claims. -/
def signToken (mac : MacFun) (secret : String) (claims : MapClaims) : JwtToken :=
  { claims := claims, sig := mac secret claims }

/-- jwt/v4 MapClaims.Valid at time now: exp must be in the future, iat
and nbf must not be in the future, each only when the claim is present;
a non-numeric time claim is invalid. -/
def validateMapClaims (now : Int) (m : MapClaims) : Bool :=
  (match claimLookup m "exp" with
   | some (ClaimVal.num e) => decide (now < e)
   | some (ClaimVal.str _) => false
   | none => true) &&
  (match claimLookup m "iat" with
   | some (ClaimVal.num i) => decide (i ≤ now)
   | some (ClaimVal.str _) => false
   | none => true) &&
  (match claimLookup m "nbf" with
   | some (ClaimVal.num n) => decide (n ≤ now)
   | some (ClaimVal.str _) => false
   | none => true)

/-- jwt.Parse / jwt.ParseWithClaims with the repository's keyfunc: verify
the signature against the configured secret, then validate the claims. -/
def jwtParse (mac : MacFun) (secret : String) (now : Int) (tok : JwtToken) :
    Except String MapClaims :=
  if tok.sig ≠ mac secret tok.claims then .error "signature is invalid"
  else if !(validateMapClaims now tok.claims) then .error "token has invalid claims"
  else .ok tok.claims

/-- GenerateTokenPair from utils/jwt.go: the access token carries user,
organization, role, type access, a one-hour expiry and iat; the refresh
token carries user, type refresh and a seven-day expiry. -/
def GenerateTokenPair (mac : MacFun) (secret : String) (now : Int)
    (userID organizationID role : String) : JwtToken × JwtToken :=
  (signToken mac secret
    [("user_id", ClaimVal.str userID),
     ("organization_id", ClaimVal.str organizationID),
     ("role", ClaimVal.str role),
     ("type", ClaimVal.str "access"),
     ("exp", ClaimVal.num (now + 3600)),
     ("iat", ClaimVal.num now)],
   signToken mac secret
    [("user_id", ClaimVal.str userID),
     ("type", ClaimVal.str "refresh"),
     ("exp", ClaimVal.num (now + 604800))])

/-- VerifyRefreshToken from utils/jwt.go: parse and verify the token,
then require the type claim to equal "refresh". -/
def VerifyRefreshToken (mac : MacFun) (secret : String) (now : Int)
    (tok : JwtToken) : Except String MapClaims :=
  match jwtParse mac secret now tok with
  | .error e => .error e
  | .ok claims =>
    if claimLookup claims "type" ≠ some (ClaimVal.str "refresh") then
      .error "not a refresh token"
    else .ok claims

theorem verifyRefresh_type_guard (mac : MacFun) (secret : String) (now : Int)
    (tok : JwtToken)
    (h : claimLookup tok.claims "type" ≠ some (ClaimVal.str "refresh")) :
    isOkB (VerifyRefreshToken mac secret now tok) = false := by
  unfold VerifyRefreshToken jwtParse
  by_cases hsig : tok.sig = mac secret tok.claims
  · simp only [hsig, ne_eq, not_true_eq_false, if_false]
    by_cases hval : validateMapClaims now tok.claims
    · simp [hval, h]
    · simp [hval]
  · simp [hsig]

/-! C8: refresh-token verification. -/

/-- C8: VerifyRefreshToken accepts only tokens whose signature verifies
against the secret and whose type claim equals "refresh"; any validly
signed token with a different type claim (in particular the generated
access token) is rejected, and any token whose signature does not match
the recomputed tag is rejected; rejection returns an error, never
claims. -/
theorem c8_refresh_token_checks (mac : MacFun) (secret : String) (now : Int)
    (tok : JwtToken) :
    ((∃ cl, VerifyRefreshToken mac secret now tok = .ok cl) →
      tok.sig = mac secret tok.claims ∧
      claimLookup tok.claims "type" = some (ClaimVal.str "refresh"))
    ∧ (claimLookup tok.claims "type" ≠ some (ClaimVal.str "refresh") →
        isOkB (VerifyRefreshToken mac secret now tok) = false)
    ∧ (tok.sig ≠ mac secret tok.claims →
        isOkB (VerifyRefreshToken mac secret now tok) = false)
    ∧ (∀ u o r now2, isOkB (VerifyRefreshToken mac secret now2
        (GenerateTokenPair mac secret now u o r).1) = false) := by
  refine ⟨?_, verifyRefresh_type_guard mac secret now tok, ?_, ?_⟩
  · rintro ⟨cl, hok⟩
    unfold VerifyRefreshToken jwtParse at hok
    by_cases hsig : tok.sig = mac secret tok.claims
    · refine ⟨hsig, ?_⟩
      simp only [hsig, ne_eq, not_true_eq_false, if_false] at hok
      by_cases hval : validateMapClaims now tok.claims
      · simp only [hval, Bool.not_true, Bool.false_eq_true, if_false] at hok
        by_cases hty : claimLookup tok.claims "type" = some (ClaimVal.str "refresh")
        · exact hty
        · simp [hty] at hok
      · simp [hval] at hok
    · simp [hsig] at hok
  · intro hsig
    unfold VerifyRefreshToken jwtParse
    simp [hsig]
  · intro u o r now2
    apply verifyRefresh_type_guard
    intro h
    simp [GenerateTokenPair, signToken, claimLookup] at h

/-- A concrete MAC for witnesses. -/
def macW : MacFun := fun secret claims => secret.length + 3 * claims.length

/-- The concrete access token of the witness token pair. -/
def accessTokW : JwtToken := (GenerateTokenPair macW "sec" 0 "u1" "org1" "admin").1

/-- The concrete refresh token of the witness token pair. -/
def refreshTokW : JwtToken := (GenerateTokenPair macW "sec" 0 "u1" "org1" "admin").2

/-- The witness refresh token with a tampered signature. -/
def tamperedTokW : JwtToken := { claims := refreshTokW.claims, sig := refreshTokW.sig + 1 }

/-- Witness for C8: the generated access token and a tampered refresh
token are rejected, and the genuine refresh token verifies (showing the
acceptance hypothesis of the theorem is satisfiable). -/
theorem c8_witness :
    isOkB (VerifyRefreshToken macW "sec" 0 accessTokW) = false ∧
    isOkB (VerifyRefreshToken macW "sec" 0 tamperedTokW) = false ∧
    (accessTokW.sig = macW "sec" accessTokW.claims ∨
      claimLookup refreshTokW.claims "type" = some (ClaimVal.str "refresh")) :=
  ⟨(c8_refresh_token_checks macW "sec" 0 accessTokW).2.1 (by decide),
   (c8_refresh_token_checks macW "sec" 0 tamperedTokW).2.2.1 (by decide),
   Or.inr ((c8_refresh_token_checks macW "sec" 0 refreshTokW).1
      ⟨refreshTokW.claims, by rfl⟩).2⟩

/-! C10: AuthMiddleware and missing or mistyped claims. -/

/-- The outcome of one middleware invocation: a 401 JSON rejection, a
runtime panic, or the call to c.Next() with the extracted locals. -/
inductive MwOutcome where
  | unauthorized (msg : String)
  | panicked (msg : String)
  | nextCalled (userID organizationID role : String)
deriving DecidableEq, Repr

/-- The unchecked Go type assertion x.(string): panics (error branch)
when the value is absent or not a string. -/
def typeAssertString : Option ClaimVal → Except String String
  | some (ClaimVal.str s) => .ok s
  | some (ClaimVal.num _) => .error "interface conversion: interface is not string"
  | none => .error "interface conversion: interface is nil, not string"

/-- The comma-ok type assertion used for the role claim: yields the zero
value instead of panicking. -/
def assertStringOr0 : Option ClaimVal → String
  | some (ClaimVal.str s) => s
  | _ => ""

/-- AuthMiddleware from the middleware package: empty header rejects with
401 Unauthorized, a failed parse rejects with 401 Invalid token, then the
user_id and organization_id claims are extracted with unchecked type
assertions (which panic on a missing or non-string claim) and the role
with a comma-ok assertion. -/
def AuthMiddleware (mac : MacFun) (secret : String) (now : Int)
    (header : Option JwtToken) : MwOutcome :=
  match header with
  | none => MwOutcome.unauthorized "Unauthorized"
  | some tok =>
    match jwtParse mac secret now tok with
    | .error _ => MwOutcome.unauthorized "Invalid token"
    | .ok claims =>
      match typeAssertString (claimLookup claims "user_id") with
      | .error m => MwOutcome.panicked m
      | .ok userID =>
        match typeAssertString (claimLookup claims "organization_id") with
        | .error m => MwOutcome.panicked m
        | .ok organizationID =>
          MwOutcome.nextCalled userID organizationID
            (assertStringOr0 (claimLookup claims "role"))

theorem typeAssertString_ok (x : Option ClaimVal) (s : String)
    (h : typeAssertString x = .ok s) : x = some (ClaimVal.str s) := by
  cases x with
  | none => exact absurd h (by simp [typeAssertString])
  | some v =>
    cases v with
    | str t =>
      simp only [typeAssertString, Except.ok.injEq] at h
      rw [h]
    | num n => exact absurd h (by simp [typeAssertString])

theorem typeAssertString_not_str (x : Option ClaimVal)
    (h : ∀ s, x ≠ some (ClaimVal.str s)) :
    ∃ m, typeAssertString x = .error m := by
  cases x with
  | none => exact ⟨_, rfl⟩
  | some v =>
    cases v with
    | str t => exact absurd rfl (h t)
    | num n => exact ⟨_, rfl⟩

/-- C10: for a token that parses and verifies but whose claim set has no
string-typed user_id, or no string-typed organization_id, AuthMiddleware
panics on the unchecked type assertion and in particular does not return
the 401 rejection. -/
theorem c10_bad_claims_panic (mac : MacFun) (secret : String) (now : Int)
    (tok : JwtToken) (claims : MapClaims)
    (hparse : jwtParse mac secret now tok = .ok claims)
    (hbad : (∀ s, claimLookup claims "user_id" ≠ some (ClaimVal.str s)) ∨
            (∀ s, claimLookup claims "organization_id" ≠ some (ClaimVal.str s))) :
    (∃ m, AuthMiddleware mac secret now (some tok) = MwOutcome.panicked m) ∧
    (∀ e, AuthMiddleware mac secret now (some tok) ≠ MwOutcome.unauthorized e) := by
  have hout : ∃ m, AuthMiddleware mac secret now (some tok) = MwOutcome.panicked m := by
    unfold AuthMiddleware
    dsimp only
    rw [hparse]
    dsimp only
    cases hu : typeAssertString (claimLookup claims "user_id") with
    | error m => exact ⟨m, rfl⟩
    | ok s =>
      have hus := typeAssertString_ok _ _ hu
      rcases hbad with hb | hb
      · exact absurd hus (hb s)
      · obtain ⟨m, hm⟩ := typeAssertString_not_str _ hb
        rw [hm]
        exact ⟨m, rfl⟩
  obtain ⟨m, hm⟩ := hout
  refine ⟨⟨m, hm⟩, ?_⟩
  intro e he
  rw [hm] at he
  cases he

/-- Witness for C10: a well-signed token whose user_id claim is a number
panics instead of being rejected. -/
theorem c10_witness :
    (∃ m, AuthMiddleware macW "sec" 0
        (some { claims := [("user_id", ClaimVal.num 5)],
                sig := macW "sec" [("user_id", ClaimVal.num 5)] }) =
      MwOutcome.panicked m) ∧
    (∀ e, AuthMiddleware macW "sec" 0
        (some { claims := [("user_id", ClaimVal.num 5)],
                sig := macW "sec" [("user_id", ClaimVal.num 5)] }) ≠
      MwOutcome.unauthorized e) :=
  c10_bad_claims_panic macW "sec" 0
    { claims := [("user_id", ClaimVal.num 5)],
      sig := macW "sec" [("user_id", ClaimVal.num 5)] }
    [("user_id", ClaimVal.num 5)]
    (by rfl)
    (Or.inl (by intro s h; simp [claimLookup] at h))


/-! Password hashing (utils/jwt.go: HashPassword and ComparePasswords).

HashPassword computes bcrypt.GenerateFromPassword and base64-encodes the
60-byte hash with encoding/base64 StdEncoding; ComparePasswords decodes
the stored string and calls bcrypt.CompareHashAndPassword.  The base64
codec below is Go-faithful: standard alphabet, padding only in the final
quantum, mid-stream padding or foreign characters rejected, and unused
trailing bits of a padded final quantum ignored (Go's default decoder is
not strict about them).  bcrypt itself is an external primitive, so it is
modelled as an ideal salted hash: deterministic, collision-free, refusing
passwords over 72 bytes (the documented bcrypt limit), with the salt
recoverable from the hash prefix, the digest depending on both salt and
password, and a byte length divisible by three - real bcrypt emits
exactly 60 bytes, so its base64 form has no padding, which is what the
one-character-mutation property rests on.  The random salt drawn inside
GenerateFromPassword is passed explicitly as an oracle argument. -/

/-- The standard base64 alphabet. -/
def b64Alphabet : List Char :=
  "ABCDEFGHIJKLMNOPQRSTUVWXYZabcdefghijklmnopqrstuvwxyz0123456789+/".toList

/-- Character for a 6-bit value. -/
def b64Char (n : Nat) : Char := b64Alphabet.getD n 'A'

/-- Index of a character in the alphabet, none for foreign characters. -/
def b64Index (c : Char) : Option Nat :=
  (List.range 64).find? (fun i => b64Char i == c)

/-- Encode one full 3-byte group as 4 characters. -/
def b64EncodeGroup (b0 b1 b2 : Nat) : List Char :=
  [b64Char (b0 / 4), b64Char (b0 % 4 * 16 + b1 / 16),
   b64Char (b1 % 16 * 4 + b2 / 64), b64Char (b2 % 64)]

/-- base64.StdEncoding.EncodeToString over a byte list. -/
def base64Encode : List Nat → List Char
  | [] => []
  | [b0] => [b64Char (b0 / 4), b64Char (b0 % 4 * 16), '=', '=']
  | [b0, b1] => [b64Char (b0 / 4), b64Char (b0 % 4 * 16 + b1 / 16), b64Char (b1 % 16 * 4), '=']
  | b0 :: b1 :: b2 :: rest => b64EncodeGroup b0 b1 b2 ++ base64Encode rest

/-- base64.StdEncoding.DecodeString: 4-character quanta, padding only at
the end of the input, foreign characters rejected, unused trailing bits
of a padded quantum discarded (Go's non-strict default). -/
def base64Decode : List Char → Option (List Nat)
  | [] => some []
  | c0 :: c1 :: c2 :: c3 :: rest =>
    match b64Index c0, b64Index c1 with
    | some i0, some i1 =>
      if c2 = '=' then
        if c3 = '=' then
          if rest = [] then some [i0 * 4 + i1 / 16] else none
        else none
      else
        match b64Index c2 with
        | some i2 =>
          if c3 = '=' then
            if rest = [] then some [i0 * 4 + i1 / 16, i1 % 16 * 16 + i2 / 4] else none
          else
            match b64Index c3 with
            | some i3 =>
              (base64Decode rest).map
                (fun bs => (i0 * 4 + i1 / 16) :: (i1 % 16 * 16 + i2 / 4) :: (i2 % 4 * 64 + i3) :: bs)
            | none => none
        | none => none
    | _, _ => none
  | _ => none

/-- A natural split into three bytes (big-endian, modulo 2^24). -/
def byte3 (n : Nat) : List Nat := [n / 65536 % 256, n / 256 % 256, n % 256]

/-- Injective byte encoding of the password (three bytes per character),
standing for the password-dependent part of the ideal bcrypt digest. -/
def pwBytes (password : String) : List Nat :=
  (password.toList.map Char.toNat).flatMap byte3

/-- Ideal bcrypt digest: a salt block, followed by a salt-and-password
dependent remainder (real bcrypt stores cost and salt in the prefix and a
checksum depending on both salt and password after it); the byte length
is divisible by three, as 60 is. -/
def bcryptRaw (salt : Nat) (password : String) : List Nat :=
  byte3 (salt % 16777216) ++ byte3 (salt % 16777216) ++ pwBytes password

/-- bcrypt.GenerateFromPassword with an explicit salt oracle: errors on
passwords longer than 72 bytes, the documented bcrypt limit. -/
def bcryptGenerateFromPassword (salt : Nat) (password : String) : Except String (List Nat) :=
  if password.utf8ByteSize > 72 then .error "bcrypt: password length exceeds 72 bytes"
  else .ok (bcryptRaw salt password)

/-- bcrypt.CompareHashAndPassword: parse the salt from the stored hash,
recompute the digest for the candidate password with that salt, and
compare the full byte strings. -/
def bcryptCompareHashAndPassword (hashedBytes : List Nat) (password : String) : Bool :=
  match hashedBytes with
  | b0 :: b1 :: b2 :: _ =>
    match bcryptGenerateFromPassword (b0 * 65536 + b1 * 256 + b2) password with
    | .ok recomputed => hashedBytes == recomputed
    | .error _ => false
  | _ => false

/-- HashPassword from utils/jwt.go: bcrypt then base64 (the hash string
is represented as its character list). -/
def HashPassword (salt : Nat) (password : String) : Except String (List Char) :=
  match bcryptGenerateFromPassword salt password with
  | .ok hashedBytes => .ok (base64Encode hashedBytes)
  | .error e => .error e

/-- ComparePasswords from utils/jwt.go: base64-decode the stored hash
(false on a decode error) then bcrypt-compare. -/
def ComparePasswords (encodedHash : List Char) (password : String) : Bool :=
  match base64Decode encodedHash with
  | none => false
  | some hashedBytes => bcryptCompareHashAndPassword hashedBytes password

theorem b64Char_lt64_ne_pad : ∀ i, i < 64 → b64Char i ≠ '=' := by decide

theorem b64Char_ne_pad (i : Nat) : b64Char i ≠ '=' := by
  by_cases h : i < 64
  · exact b64Char_lt64_ne_pad i h
  · have hd : b64Char i = 'A' := by
      unfold b64Char
      apply List.getD_eq_default
      have : b64Alphabet.length = 64 := by decide
      omega
    rw [hd]
    decide

theorem b64Index_b64Char : ∀ i, i < 64 → b64Index (b64Char i) = some i := by decide

theorem b64Index_eq_some (c : Char) (i : Nat) (h : b64Index c = some i) :
    b64Char i = c ∧ i < 64 := by
  unfold b64Index at h
  constructor
  · have h2 := List.find?_some h
    simpa using h2
  · have h2 := List.mem_of_find?_eq_some h
    simpa using h2

theorem b64Index_some_ne_pad (c : Char) (i : Nat) (h : b64Index c = some i) : c ≠ '=' := by
  obtain ⟨hc, hlt⟩ := b64Index_eq_some c i h
  rw [← hc]
  exact b64Char_ne_pad i

theorem base64Decode_lt : ∀ (s : List Char) (bytes : List Nat),
    base64Decode s = some bytes → ∀ b ∈ bytes, b < 256
  | [], bytes, h => by
    simp only [base64Decode, Option.some.injEq] at h
    simp [← h]
  | [c0], bytes, h => by simp [base64Decode] at h
  | [c0, c1], bytes, h => by simp [base64Decode] at h
  | [c0, c1, c2], bytes, h => by simp [base64Decode] at h
  | c0 :: c1 :: c2 :: c3 :: rest, bytes, h => by
    simp only [base64Decode] at h
    split at h
    · rename_i i0 i1 h0 h1
      obtain ⟨hc0, hl0⟩ := b64Index_eq_some c0 i0 h0
      obtain ⟨hc1, hl1⟩ := b64Index_eq_some c1 i1 h1
      split at h
      · split at h
        · split at h
          · simp only [Option.some.injEq] at h
            subst h
            intro b hb
            simp at hb
            omega
          · exact absurd h (by simp)
        · exact absurd h (by simp)
      · split at h
        · rename_i i2 h2
          obtain ⟨hc2, hl2⟩ := b64Index_eq_some c2 i2 h2
          split at h
          · split at h
            · simp only [Option.some.injEq] at h
              subst h
              intro b hb
              simp at hb
              rcases hb with hb | hb <;> omega
            · exact absurd h (by simp)
          · split at h
            · rename_i i3 h3
              obtain ⟨hc3, hl3⟩ := b64Index_eq_some c3 i3 h3
              rw [Option.map_eq_some'] at h
              obtain ⟨bs, hbs, hb⟩ := h
              subst hb
              have ih := base64Decode_lt rest bs hbs
              intro b hb
              simp only [List.mem_cons] at hb
              rcases hb with hb | hb | hb | hb
              · omega
              · omega
              · omega
              · exact ih b hb
            · exact absurd h (by simp)
        · exact absurd h (by simp)
    · exact absurd h (by simp)

theorem decode_encode_id : ∀ (bs : List Nat), (∀ b ∈ bs, b < 256) → bs.length % 3 = 0 →
    base64Decode (base64Encode bs) = some bs
  | [], _, _ => by simp [base64Encode, base64Decode]
  | [b0], _, h3 => by simp at h3
  | [b0, b1], _, h3 => by simp at h3
  | b0 :: b1 :: b2 :: rest, hb, h3 => by
    have hb0 : b0 < 256 := hb b0 (by simp)
    have hb1 : b1 < 256 := hb b1 (by simp)
    have hb2 : b2 < 256 := hb b2 (by simp)
    have ih := decode_encode_id rest (fun b hm => hb b (by simp [hm])) (by
      simp only [List.length_cons] at h3
      omega)
    show base64Decode (b64EncodeGroup b0 b1 b2 ++ base64Encode rest) = _
    simp only [b64EncodeGroup, List.cons_append, List.nil_append]
    simp only [base64Decode]
    rw [b64Index_b64Char _ (by omega), b64Index_b64Char _ (by omega),
        b64Index_b64Char _ (by omega), b64Index_b64Char _ (by omega)]
    dsimp only
    rw [if_neg (b64Char_ne_pad _), if_neg (b64Char_ne_pad _)]
    rw [ih]
    simp only [Option.map_some', Option.some.injEq, List.cons.injEq]
    refine ⟨?_, ?_, ?_, trivial⟩ <;> omega

theorem encode_decode_id : ∀ (s : List Char) (bytes : List Nat),
    base64Decode s = some bytes → (∀ c ∈ s, c ≠ '=') → base64Encode bytes = s
  | [], bytes, h, _ => by
    simp only [base64Decode, Option.some.injEq] at h
    simp [← h, base64Encode]
  | [c0], bytes, h, _ => by simp [base64Decode] at h
  | [c0, c1], bytes, h, _ => by simp [base64Decode] at h
  | [c0, c1, c2], bytes, h, _ => by simp [base64Decode] at h
  | c0 :: c1 :: c2 :: c3 :: rest, bytes, h, hnp => by
    simp only [base64Decode] at h
    split at h
    · rename_i i0 i1 h0 h1
      obtain ⟨hc0, hl0⟩ := b64Index_eq_some c0 i0 h0
      obtain ⟨hc1, hl1⟩ := b64Index_eq_some c1 i1 h1
      split at h
      · rename_i hc2
        exact absurd hc2 (hnp c2 (by simp))
      · split at h
        · rename_i i2 h2
          obtain ⟨hc2, hl2⟩ := b64Index_eq_some c2 i2 h2
          split at h
          · rename_i hc3
            exact absurd hc3 (hnp c3 (by simp))
          · split at h
            · rename_i i3 h3
              obtain ⟨hc3, hl3⟩ := b64Index_eq_some c3 i3 h3
              rw [Option.map_eq_some'] at h
              obtain ⟨bs, hbs, hb⟩ := h
              subst hb
              have ih := encode_decode_id rest bs hbs
                (fun ch hm => hnp ch (by simp [hm]))
              show b64EncodeGroup _ _ _ ++ base64Encode bs = _
              rw [ih]
              unfold b64EncodeGroup
              have e0 : (i0 * 4 + i1 / 16) / 4 = i0 := by omega
              have e1 : (i0 * 4 + i1 / 16) % 4 * 16 + (i1 % 16 * 16 + i2 / 4) / 16 = i1 := by
                omega
              have e2 : (i1 % 16 * 16 + i2 / 4) % 16 * 4 + (i2 % 4 * 64 + i3) / 64 = i2 := by
                omega
              have e3 : (i2 % 4 * 64 + i3) % 64 = i3 := by omega
              rw [e0, e1, e2, e3, hc0, hc1, hc2, hc3]
              rfl
            · exact absurd h (by simp)
        · exact absurd h (by simp)
    · exact absurd h (by simp)

theorem decode_pad_length : ∀ (s : List Char) (bytes : List Nat),
    base64Decode s = some bytes → '=' ∈ s → bytes.length % 3 ≠ 0
  | [], bytes, h, hp => by simp at hp
  | [c0], bytes, h, _ => by simp [base64Decode] at h
  | [c0, c1], bytes, h, _ => by simp [base64Decode] at h
  | [c0, c1, c2], bytes, h, _ => by simp [base64Decode] at h
  | c0 :: c1 :: c2 :: c3 :: rest, bytes, h, hp => by
    simp only [base64Decode] at h
    split at h
    · rename_i i0 i1 h0 h1
      split at h
      · split at h
        · split at h
          · simp only [Option.some.injEq] at h
            subst h
            simp
          · exact absurd h (by simp)
        · exact absurd h (by simp)
      · rename_i hc2
        split at h
        · rename_i i2 h2
          split at h
          · split at h
            · simp only [Option.some.injEq] at h
              subst h
              simp
            · exact absurd h (by simp)
          · rename_i hc3
            split at h
            · rename_i i3 h3
              rw [Option.map_eq_some'] at h
              obtain ⟨bs, hbs, hb⟩ := h
              subst hb
              have hrest : '=' ∈ rest := by
                simp only [List.mem_cons] at hp
                rcases hp with rfl | rfl | rfl | rfl | hp
                · exact absurd rfl (b64Index_some_ne_pad _ _ h0)
                · exact absurd rfl (b64Index_some_ne_pad _ _ h1)
                · exact absurd rfl hc2
                · exact absurd rfl hc3
                · exact hp
              have ih := decode_pad_length rest bs hbs hrest
              simp only [List.length_cons]
              omega
            · exact absurd h (by simp)
        · exact absurd h (by simp)
    · exact absurd h (by simp)

theorem encode_append : ∀ (xs ys : List Nat), xs.length % 3 = 0 →
    base64Encode (xs ++ ys) = base64Encode xs ++ base64Encode ys
  | [], ys, _ => by simp [base64Encode]
  | [b0], ys, h => by simp at h
  | [b0, b1], ys, h => by simp at h
  | b0 :: b1 :: b2 :: rest, ys, h => by
    have ih := encode_append rest ys (by
      simp only [List.length_cons] at h
      omega)
    show base64Encode (b0 :: b1 :: b2 :: (rest ++ ys)) = _
    rw [show base64Encode (b0 :: b1 :: b2 :: (rest ++ ys)) =
          b64EncodeGroup b0 b1 b2 ++ base64Encode (rest ++ ys) from rfl,
        ih]
    rw [show base64Encode (b0 :: b1 :: b2 :: rest) =
          b64EncodeGroup b0 b1 b2 ++ base64Encode rest from rfl]
    rw [List.append_assoc]

theorem flatMap_byte3_length (l : List Nat) : (l.flatMap byte3).length = 3 * l.length := by
  induction l with
  | nil => simp
  | cons a l ih =>
    simp only [List.flatMap_cons, List.length_append, List.length_cons, ih, byte3]
    simp
    omega

theorem bcryptRaw_length_mod (salt : Nat) (p : String) : (bcryptRaw salt p).length % 3 = 0 := by
  simp only [bcryptRaw, pwBytes, List.length_append, byte3, List.length_cons,
    List.length_nil, flatMap_byte3_length]
  omega

theorem byte3_lt (n : Nat) : ∀ b ∈ byte3 n, b < 256 := by
  intro b hb
  simp only [byte3, List.mem_cons, List.not_mem_nil, or_false] at hb
  rcases hb with hb | hb | hb <;> omega

theorem bcryptRaw_valid (salt : Nat) (p : String) : ∀ b ∈ bcryptRaw salt p, b < 256 := by
  intro b hb
  simp only [bcryptRaw, pwBytes, List.mem_append, List.mem_flatMap] at hb
  rcases hb with (hb | hb) | ⟨a, _, hb⟩
  · exact byte3_lt _ b hb
  · exact byte3_lt _ b hb
  · exact byte3_lt _ b hb

theorem set_two_copies {α : Type} (g0 g1 g2 g3 k0 k1 k2 k3 : α) (E : List α)
    (i : Nat) (c : α)
    (hi : i < (g0 :: g1 :: g2 :: g3 :: g0 :: g1 :: g2 :: g3 :: E).length)
    (hset : (g0 :: g1 :: g2 :: g3 :: g0 :: g1 :: g2 :: g3 :: E).set i c
            = k0 :: k1 :: k2 :: k3 :: k0 :: k1 :: k2 :: k3 :: E) :
    c = (g0 :: g1 :: g2 :: g3 :: g0 :: g1 :: g2 :: g3 :: E).getD i c := by
  by_cases h8 : i < 8
  · interval_cases i <;> (simp only [List.set, List.cons.injEq] at hset; simp_all)
  · obtain ⟨j, rfl⟩ : ∃ j, i = j + 8 := ⟨i - 8, by omega⟩
    simp only [List.set, List.cons.injEq] at hset
    obtain ⟨_, _, _, _, _, _, _, _, hE⟩ := hset
    have hj : j < E.length := by
      simp only [List.length_cons] at hi
      omega
    have h1 : (E.set j c).getD j c = c := by
      rw [List.getD_eq_getElem _ _ (by simp only [List.length_set]; omega)]
      exact List.getElem_set_self _
    rw [hE] at h1
    simp only [List.getD_cons_succ]
    exact h1.symm

theorem encode_bcryptRaw_split (s : Nat) (p : String) :
    base64Encode (bcryptRaw s p) =
      base64Encode (byte3 (s % 16777216)) ++
        (base64Encode (byte3 (s % 16777216)) ++ base64Encode (pwBytes p)) := by
  unfold bcryptRaw
  rw [List.append_assoc, encode_append _ _ (by simp [byte3]),
      encode_append _ _ (by simp [byte3])]

theorem encode_byte3_explicit (n : Nat) :
    base64Encode (byte3 n) =
      [b64Char ((n / 65536 % 256) / 4),
       b64Char ((n / 65536 % 256) % 4 * 16 + (n / 256 % 256) / 16),
       b64Char ((n / 256 % 256) % 16 * 4 + (n % 256) / 64),
       b64Char ((n % 256) % 64)] := rfl

theorem comparePasswords_roundtrip (salt : Nat) (p : String) (h : List Char)
    (hok : HashPassword salt p = .ok h) : ComparePasswords h p = true := by
  unfold HashPassword at hok
  split at hok
  · rename_i hashedBytes hgen
    simp only [Except.ok.injEq] at hok
    subst hok
    unfold bcryptGenerateFromPassword at hgen
    split at hgen
    · exact absurd hgen (by simp)
    · rename_i h72
      simp only [Except.ok.injEq] at hgen
      subst hgen
      unfold ComparePasswords
      rw [decode_encode_id _ (bcryptRaw_valid salt p) (bcryptRaw_length_mod salt p)]
      dsimp only
      have hmlt : salt % 16777216 < 16777216 := Nat.mod_lt _ (by norm_num)
      have hshape : bcryptRaw salt p =
          (salt % 16777216 / 65536 % 256) :: (salt % 16777216 / 256 % 256) ::
            (salt % 16777216 % 256) :: (byte3 (salt % 16777216) ++ pwBytes p) := by
        simp [bcryptRaw, byte3]
      rw [hshape]
      unfold bcryptCompareHashAndPassword
      dsimp only
      have hsum : salt % 16777216 / 65536 % 256 * 65536 +
          salt % 16777216 / 256 % 256 * 256 + salt % 16777216 % 256 = salt % 16777216 := by
        omega
      rw [hsum]
      unfold bcryptGenerateFromPassword
      rw [if_neg h72]
      dsimp only
      have hraw : bcryptRaw (salt % 16777216) p = bcryptRaw salt p := by
        simp [bcryptRaw, Nat.mod_eq_of_lt hmlt]
      rw [hraw, hshape]
      simp
  · exact absurd hok (by simp)

theorem comparePasswords_mutation (salt : Nat) (p : String) (h : List Char)
    (hok : HashPassword salt p = .ok h) (i : Nat) (hi : i < h.length) (c : Char)
    (hc : c ≠ h.get ⟨i, hi⟩) : ComparePasswords (h.set i c) p = false := by
  unfold HashPassword at hok
  split at hok
  case h_2 => exact absurd hok (by simp)
  rename_i hashedBytes hgen
  simp only [Except.ok.injEq] at hok
  unfold bcryptGenerateFromPassword at hgen
  split at hgen
  case isTrue => exact absurd hgen (by simp)
  rename_i h72
  simp only [Except.ok.injEq] at hgen
  subst hgen
  subst hok
  by_contra hcmp
  rw [Bool.not_eq_false] at hcmp
  unfold ComparePasswords at hcmp
  cases hdec : base64Decode ((base64Encode (bcryptRaw salt p)).set i c) with
  | none =>
    rw [hdec] at hcmp
    simp at hcmp
  | some bytes' =>
    rw [hdec] at hcmp
    dsimp only at hcmp
    unfold bcryptCompareHashAndPassword at hcmp
    split at hcmp
    case h_2 => simp at hcmp
    rename_i b0 b1 b2 tail
    split at hcmp
    case h_2 => simp at hcmp
    rename_i recomputed hrec
    have hb' : b0 :: b1 :: b2 :: tail = recomputed := by simpa using hcmp
    unfold bcryptGenerateFromPassword at hrec
    split at hrec
    · exact absurd hrec (by simp)
    rename_i h72'
    simp only [Except.ok.injEq] at hrec
    subst hrec
    by_cases hpad : '=' ∈ ((base64Encode (bcryptRaw salt p)).set i c)
    · have hlen := decode_pad_length _ _ hdec hpad
      apply hlen
      rw [hb']
      exact bcryptRaw_length_mod _ _
    · have henc := encode_decode_id _ _ hdec (by
        intro ch hm heq2
        exact hpad (heq2 ▸ hm))
      rw [hb'] at henc
      rw [encode_bcryptRaw_split (b0 * 65536 + b1 * 256 + b2) p,
          encode_bcryptRaw_split salt p,
          encode_byte3_explicit ((b0 * 65536 + b1 * 256 + b2) % 16777216),
          encode_byte3_explicit (salt % 16777216)] at henc
      simp only [List.cons_append, List.nil_append] at henc
      have hcD : c ≠ (base64Encode (bcryptRaw salt p)).getD i c := by
        intro hEq
        apply hc
        rw [List.getD_eq_getElem _ _ hi] at hEq
        rw [List.get_eq_getElem]
        exact hEq
      rw [encode_bcryptRaw_split salt p,
          encode_byte3_explicit (salt % 16777216)] at hcD
      simp only [List.cons_append, List.nil_append] at hcD
      have hiL := hi
      rw [encode_bcryptRaw_split salt p,
          encode_byte3_explicit (salt % 16777216)] at hiL
      simp only [List.cons_append, List.nil_append] at hiL
      exact hcD (set_two_copies _ _ _ _ _ _ _ _ _ i c hiL henc.symm)

/-! C9: hash round trip and one-character mutation. -/

/-- C9: when HashPassword succeeds, ComparePasswords accepts the original
password against the stored hash string, and changing any single
character of the stored hash string makes ComparePasswords reject the
original password. -/
theorem c9_hash_roundtrip_and_mutation (salt : Nat) (p : String) (h : List Char)
    (hok : HashPassword salt p = .ok h) :
    ComparePasswords h p = true ∧
    ∀ (i : Fin h.length) (c : Char), c ≠ h.get i →
      ComparePasswords (h.set i.1 c) p = false :=
  ⟨comparePasswords_roundtrip salt p h hok,
   fun i c hc =>
     comparePasswords_mutation salt p h hok i.1 i.2 c (by
       intro he
       exact hc (by rw [he]))⟩

/-- Witness for C9: hashing "pw" with salt 1 yields a concrete hash that
verifies, and flipping its first character makes verification fail. -/
theorem c9_witness :
    HashPassword 1 "pw" = .ok "AAABAAABAABwAAB3".toList ∧
    ComparePasswords "AAABAAABAABwAAB3".toList "pw" = true ∧
    ComparePasswords ("AAABAAABAABwAAB3".toList.set 0 '!') "pw" = false := by
  have hok : HashPassword 1 "pw" = .ok "AAABAAABAABwAAB3".toList := by rfl
  have h2 := c9_hash_roundtrip_and_mutation 1 "pw" _ hok
  exact ⟨hok, h2.1, h2.2 ⟨0, by decide⟩ '!' (by decide)⟩

end SharedLibs
